import Mathlib

/-!
Shallow embedding of the track-analysis core of `restwithgps.py`
(resampler, geometry primitives, stop/move classifier, derived stop
metrics), together with theorems checking the natural-language
specification against it.

Modelling conventions:
* `datetime.datetime` instants are integers counting microseconds; a
  `datetime.timedelta` is the integer difference.  Python's
  `timedelta.seconds` attribute (the normalized seconds *component*,
  always in `[0, 86400)`) is `tdSeconds` below; Python's `%` on a
  positive modulus agrees with `Int.emod`.
* Python floats are modelled as exact real numbers; GPS coordinates,
  which only ever flow through field access, averaging and comparisons,
  are modelled as rationals and cast to `ℝ` at the trigonometry
  boundary.
* A Python expression that can raise (`km / second` with `second = 0`,
  `acos` outside `[-1, 1]`) is modelled with `Option`: `none` is an
  uncaught exception.  `get_distance` catches its `ValueError`
  internally and so stays total; the speed computation does not, so the
  analyzer as a whole returns `Option`.
* The lazy generators become functions on lists: the resampler
  `AbstractPointStream.get_point` is `get_point : List Point → List
  Point`, and the `get_stop_points` loop is a monadic fold of `stepParam`
  over the resampled list (the Python function iterates exactly that
  resampled stream).
-/

/-- `Point` dataclass: one (timestamp, latitude, longitude) sample.
Timestamp in microseconds. -/
structure Point where
  timestamp : ℤ
  latitude : ℚ
  longitude : ℚ
  deriving DecidableEq

/-- `StopPoint` dataclass: an interval during which the subject was
stationary, at a fixed position. -/
structure StopPoint where
  latitude : ℚ
  longitude : ℚ
  start_time : ℤ
  end_time : ℤ
  deriving DecidableEq

/-- `POINT_INTERVAL_TIME = timedelta(seconds=10)` in microseconds. -/
def POINT_INTERVAL_TIME : ℤ := 10000000

/-- `MIN_SPEED = 5.0` (km/h). -/
noncomputable def MIN_SPEED : ℝ := 5

/-- `MIN_STOP = timedelta(minutes=5)` in microseconds. -/
def MIN_STOP : ℤ := 300000000

/-- `TIME_ZONE_DIFF = timedelta(hours=2)` in microseconds. -/
def TIME_ZONE_DIFF : ℤ := 7200000000

/-- `earth_rad = 6378.137` (km). -/
noncomputable def earth_rad : ℝ := 6378.137

/-- Python `timedelta.seconds`: the seconds component of the normalized
timedelta, i.e. `(d mod 1 day) div 1 second`, always in `[0, 86400)`. -/
def tdSeconds (d : ℤ) : ℤ := (d % 86400000000) / 1000000

section Geometry

open scoped Classical

/-- `math.radians`: degrees to radians. -/
noncomputable def deg_to_rad (x : ℚ) : ℝ := (x : ℝ) * Real.pi / 180

/-- `_latlng_to_xyz(lat, lng)`: unit 3-vector of a lat/long pair. -/
noncomputable def latlng_to_xyz (lat lng : ℚ) : ℝ × ℝ × ℝ :=
  (Real.cos (deg_to_rad lat) * Real.cos (deg_to_rad lng),
   Real.cos (deg_to_rad lat) * Real.sin (deg_to_rad lng),
   Real.sin (deg_to_rad lat))

/-- `sum(x * y for x, y in zip(xyz0, xyz1))`. -/
noncomputable def dot3 (v w : ℝ × ℝ × ℝ) : ℝ :=
  v.1 * w.1 + v.2.1 * w.2.1 + v.2.2 * w.2.2

/-- Python `math.acos`, which raises `ValueError` outside `[-1, 1]`;
`none` models the exception. -/
noncomputable def acos_or_err (x : ℝ) : Option ℝ :=
  if x < -1 ∨ 1 < x then none else some (Real.arccos x)

/-- The `try: return acos(...) * radious except ValueError: return 0.0`
tail of `get_distance`, applied to the dot product `x`. -/
noncomputable def acos_dist (x radious : ℝ) : ℝ :=
  match acos_or_err x with
  | some a => a * radious
  | none => 0

/-- `get_distance(pos0, pos1, radious)`: spherical law-of-cosines
distance, with the `pos0 == pos1` short-circuit and the `ValueError`
catch. -/
noncomputable def get_distance (pos0 pos1 : ℚ × ℚ) (radious : ℝ) : ℝ :=
  if pos0 = pos1 then 0
  else acos_dist (dot3 (latlng_to_xyz pos0.1 pos0.2) (latlng_to_xyz pos1.1 pos1.2)) radious

/-- `get_speed(km, second) = km / second * 3600`.  Python raises
`ZeroDivisionError` when `second == 0` (there is no guard in the
source); `none` models that exception. -/
noncomputable def get_speed (km : ℝ) (second : ℤ) : Option ℝ :=
  if second = 0 then none else some (km / (second : ℝ) * 3600)

/-- `get_vector(pos0, pos1) = atan2(Δlat, Δlon)`.  `math.atan2 y x`
coincides with `Complex.arg ⟨x, y⟩` on every input, axes and origin
included. -/
noncomputable def get_vector (pos0 pos1 : ℚ × ℚ) : ℝ :=
  Complex.arg ⟨((pos1.2 - pos0.2 : ℚ) : ℝ), ((pos1.1 - pos0.1 : ℚ) : ℝ)⟩

/-- `get_speed_from_points(point1, point2)`: distance over the
`timedelta.seconds` component of the timestamp difference. -/
noncomputable def get_speed_from_points (point1 point2 : Point) : Option ℝ :=
  get_speed
    (get_distance (point1.latitude, point1.longitude) (point2.latitude, point2.longitude) earth_rad)
    (tdSeconds (point2.timestamp - point1.timestamp))

end Geometry

/-- Timestamp of the first buffered sample (the window anchor); 0 on
the empty buffer, which the code never queries. -/
def anchorTime : List Point → ℤ
  | [] => 0
  | p :: _ => p.timestamp

/-- The averaged sample the resampler emits for one buffer: the
anchor's timestamp and the arithmetic mean of the buffered
latitudes/longitudes. -/
def avgPoint (buf : List Point) : Point :=
  { timestamp := anchorTime buf,
    latitude := (buf.map Point.latitude).sum / (buf.length : ℚ),
    longitude := (buf.map Point.longitude).sum / (buf.length : ℚ) }

/-- The loop body of `AbstractPointStream.get_point`, with the buffer
`self._points` made explicit.  On each sample: buffer it while it is
within `POINT_INTERVAL_TIME` of the anchor (or the buffer is empty),
otherwise emit the averaged buffer and restart the buffer at the new
sample; at exhaustion flush a non-empty buffer as one final averaged
sample. -/
def resampleAux (buf : List Point) : List Point → List Point
  | [] => if buf.isEmpty then [] else [avgPoint buf]
  | p :: rest =>
    if buf.isEmpty ∨ p.timestamp - anchorTime buf < POINT_INTERVAL_TIME then
      resampleAux (buf ++ [p]) rest
    else
      avgPoint buf :: resampleAux [p] rest

/-- `AbstractPointStream.get_point`: resample the raw stream (a fresh
instance starts with an empty buffer). -/
def get_point (ps : List Point) : List Point := resampleAux [] ps

/-- The mutable state of the `get_stop_points` loop. -/
structure AnalyzerState where
  stop_points : List StopPoint
  stop_point : Option StopPoint
  prev_point : Option Point
  route : List (ℚ × ℚ)
  prev_vector : ℝ

/-- The loop's initial state: empty accumulators, no previous sample,
`prev_vector = 0`. -/
noncomputable def initState : AnalyzerState :=
  { stop_points := [], stop_point := none, prev_point := none, route := [], prev_vector := 0 }

section Analyzer

open scoped Classical

/-- The stop/move bookkeeping of one loop iteration (`# Stopping` /
`# Moving` branches in the source): below the speed threshold, extend
the open stop's `end_time` or open a new one at the sample's position;
otherwise close and append an open stop. -/
noncomputable def stopUpdate (min_speed speed : ℝ) (s : AnalyzerState) (point : Point) :
    AnalyzerState :=
  if speed < min_speed then
    match s.stop_point with
    | some sp =>
        { s with stop_point := some ({ sp with end_time := point.timestamp + TIME_ZONE_DIFF }) }
    | none =>
        let nsp : StopPoint :=
          { latitude := point.latitude,
            longitude := point.longitude,
            start_time := point.timestamp + TIME_ZONE_DIFF,
            end_time := point.timestamp + TIME_ZONE_DIFF }
        { s with stop_point := some nsp }
  else
    match s.stop_point with
    | some sp =>
        { s with stop_points := s.stop_points ++ [sp], stop_point := none }
    | none => s

/-- The route-simplification test of one loop iteration: append the
sample's position when the bearing differs from the previous bearing
by at least the threshold. -/
noncomputable def routeUpdate (threshold vector : ℝ) (s : AnalyzerState) (point : Point) :
    AnalyzerState :=
  if threshold ≤ |vector - s.prev_vector| then
    { s with route := s.route ++ [(point.latitude, point.longitude)] }
  else s

/-- One iteration of the `get_stop_points` loop, with the speed
threshold (`MIN_SPEED` in the source) and the heading-change threshold
(the literal `0.1` in the source) as parameters.  `none` models the
`ZeroDivisionError` that `get_speed` raises on a zero
`timedelta.seconds`.  With no previous sample only the route is seeded
with the sample's position. -/
noncomputable def stepParam (min_speed threshold : ℝ) (s : AnalyzerState) (point : Point) :
    Option AnalyzerState :=
  match s.prev_point with
  | none =>
      some { s with
        route := s.route ++ [(point.latitude, point.longitude)],
        prev_point := some point }
  | some prev =>
      match get_speed_from_points prev point with
      | none => none
      | some speed =>
          let s1 : AnalyzerState := stopUpdate min_speed speed s point
          let vector : ℝ :=
            get_vector (prev.latitude, prev.longitude) (point.latitude, point.longitude)
          let s2 : AnalyzerState := routeUpdate threshold vector s1 point
          some { s2 with prev_vector := vector, prev_point := some point }

/-- The whole `get_stop_points` loop over a resampled stream, with the
two thresholds as parameters. -/
noncomputable def processPointsParam (min_speed threshold : ℝ) (ps : List Point) :
    Option AnalyzerState :=
  ps.foldlM (stepParam min_speed threshold) initState

/-- The loop with the source's constants. -/
noncomputable def processPoints (ps : List Point) : Option AnalyzerState :=
  processPointsParam MIN_SPEED 0.1 ps

/-- `get_stop_points(point_stream)`: iterate the stream's resampled
output and return `(stop_points, route)`.  The argument here is that
resampled output. -/
noncomputable def get_stop_points (ps : List Point) :
    Option (List StopPoint × List (ℚ × ℚ)) :=
  (processPoints ps).map fun s => (s.stop_points, s.route)

end Analyzer

/-- `get_elapsed_time(stop_point) = int((end - start).seconds / 60 + 0.5)`.
The argument of `int` is nonnegative (`.seconds` is), so truncation is
the floor. -/
def get_elapsed_time (stop_point : StopPoint) : ℤ :=
  ⌊((tdSeconds (stop_point.end_time - stop_point.start_time) : ℚ) / 60 + 1 / 2)⌋

/-- `elapsed_time_to_str(elapsed_time)`. -/
def elapsed_time_to_str (elapsed_time : ℤ) : String :=
  if 60 ≤ elapsed_time then
    toString (elapsed_time / 60) ++ "h " ++ toString (elapsed_time % 60) ++ "m"
  else
    toString elapsed_time ++ "m"

/-- The specification's formula for `elapsed_minutes`:
`round((end_time - start_time).total_seconds() / 60)` with round-half-up,
applied to the exact timestamp difference `d` in microseconds
(`total_seconds()` is `d / 10^6`, and round-half-up of `x` is
`⌊x + 1/2⌋`). -/
def spec_elapsed_minutes (d : ℤ) : ℤ := ⌊((d : ℚ) / 1000000 / 60 + 1 / 2)⌋

/-- The distance short-circuit: identical position tuples. -/
theorem get_distance_self (p : ℚ × ℚ) (r : ℝ) : get_distance p p r = 0 := by
  simp [get_distance]

/-- An out-of-domain `acos` argument is caught and turned into 0. -/
theorem acos_dist_of_out_of_domain (x r : ℝ) (h : x < -1 ∨ 1 < x) :
    acos_dist x r = 0 := by
  simp [acos_dist, acos_or_err, if_pos h]

/-- C4: `get_distance` never raises for degenerate inputs: it returns 0
on identical positions, and when the `acos` argument lands outside
`[-1, 1]` (the floating-point hazard for near-identical or antipodal
points) the caught `ValueError` yields 0 instead of a propagated
numeric-domain failure. -/
theorem C4_distance_degenerate :
    (∀ (p : ℚ × ℚ) (r : ℝ), get_distance p p r = 0) ∧
    (∀ (x r : ℝ), x < -1 ∨ 1 < x → acos_dist x r = 0) :=
  ⟨fun p r => get_distance_self p r, fun x r h => acos_dist_of_out_of_domain x r h⟩

/-- Witness for C4 at concrete inputs. -/
theorem C4_distance_degenerate_witness :
    get_distance (35, 139) (35, 139) earth_rad = 0 ∧ acos_dist 2 earth_rad = 0 :=
  ⟨C4_distance_degenerate.1 (35, 139) earth_rad,
   C4_distance_degenerate.2 2 earth_rad (Or.inr (by norm_num))⟩

/-- `timedelta.seconds` of a zero timedelta is zero. -/
theorem tdSeconds_zero : tdSeconds 0 = 0 := by decide

/-- C2 (the code lacks the guard): with two consecutive samples at the
same instant, the speed computation divides by a zero
`timedelta.seconds` and the analyzer crashes (`none`) instead of
skipping classification for that step. -/
theorem C2_zero_elapsed_crash :
    get_speed 0 0 = none ∧
    get_speed_from_points (Point.mk 0 35 139) (Point.mk 0 35 139) = none ∧
    get_stop_points [Point.mk 0 35 139, Point.mk 0 35 139] = none := by
  refine ⟨by simp [get_speed], ?_, ?_⟩
  · simp [get_speed_from_points, get_speed, tdSeconds]
  · simp [get_stop_points, processPoints, processPointsParam, List.foldlM, stepParam,
      initState, get_speed_from_points, get_speed, tdSeconds]

/-- C3 counterexample: a stop spanning exactly one day.  The code reads
the `timedelta.seconds` *component*, which wraps at 24 hours, so it
reports 0 minutes where the specification's
`round(total_seconds() / 60)` gives 1440. -/
theorem C3_day_wrap_counterexample :
    (StopPoint.mk 35 139 0 86400000000).start_time ≤
      (StopPoint.mk 35 139 0 86400000000).end_time ∧
    get_elapsed_time (StopPoint.mk 35 139 0 86400000000) = 0 ∧
    spec_elapsed_minutes
      ((StopPoint.mk 35 139 0 86400000000).end_time -
        (StopPoint.mk 35 139 0 86400000000).start_time) = 1440 := by
  refine ⟨by decide, ?_, ?_⟩
  · have h : tdSeconds 86400000000 = 0 := by decide
    simp only [get_elapsed_time]
    norm_num [h]
  · simp only [spec_elapsed_minutes]
    norm_num

/-- C3 (amended): for every `StopPoint` whose span is nonnegative and
under one day, `get_elapsed_time` equals the specification's
round-half-up of `total_seconds() / 60`; for spans of a day or more the
code instead wraps the difference modulo 24 hours. -/
theorem C3_elapsed_round_half_up_amended (sp : StopPoint)
    (h0 : sp.start_time ≤ sp.end_time)
    (h1 : sp.end_time - sp.start_time < 86400000000) :
    get_elapsed_time sp = spec_elapsed_minutes (sp.end_time - sp.start_time) := by
  unfold get_elapsed_time spec_elapsed_minutes tdSeconds
  set d : ℤ := sp.end_time - sp.start_time with hd
  have hd0 : 0 ≤ d := by omega
  have hmod : d % 86400000000 = d := Int.emod_eq_of_lt hd0 h1
  rw [hmod]
  have hL : ((d / 1000000 : ℤ) : ℚ) / 60 + 1 / 2 =
      ((d / 1000000 + 30 : ℤ) : ℚ) / ((60 : ℕ) : ℚ) := by
    push_cast
    ring
  have hR : (d : ℚ) / 1000000 / 60 + 1 / 2 =
      ((d + 30000000 : ℤ) : ℚ) / ((60000000 : ℕ) : ℚ) := by
    push_cast
    ring
  rw [hL, hR, Rat.floor_intCast_div_natCast, Rat.floor_intCast_div_natCast]
  omega

/-- Witness for the amended C3 at a concrete 90-second stop. -/
theorem C3_elapsed_witness :
    (StopPoint.mk 35 139 0 90000000).start_time ≤
      (StopPoint.mk 35 139 0 90000000).end_time ∧
    (StopPoint.mk 35 139 0 90000000).end_time -
      (StopPoint.mk 35 139 0 90000000).start_time < 86400000000 ∧
    get_elapsed_time (StopPoint.mk 35 139 0 90000000) =
      spec_elapsed_minutes
        ((StopPoint.mk 35 139 0 90000000).end_time -
          (StopPoint.mk 35 139 0 90000000).start_time) :=
  ⟨by decide, by decide,
   C3_elapsed_round_half_up_amended (StopPoint.mk 35 139 0 90000000) (by decide) (by decide)⟩

/-- The specification's bucketing of the raw stream, stated from its
words: group consecutive samples while each stays within the
10-second window of the bucket's anchor (the first sample of the
bucket); a sample at or past the window starts a new bucket; a final
non-empty buffer is one last bucket. -/
def bucketsAux (buf : List Point) : List Point → List (List Point)
  | [] => if buf.isEmpty then [] else [buf]
  | p :: rest =>
    if buf.isEmpty ∨ p.timestamp - anchorTime buf < POINT_INTERVAL_TIME then
      bucketsAux (buf ++ [p]) rest
    else
      buf :: bucketsAux [p] rest

/-- The buckets of a whole raw stream. -/
def buckets (ps : List Point) : List (List Point) := bucketsAux [] ps

/-- The resampler emits exactly one averaged sample per bucket. -/
theorem resampleAux_eq_map_avg (ps : List Point) :
    ∀ buf, resampleAux buf ps = (bucketsAux buf ps).map avgPoint := by
  induction ps with
  | nil =>
    intro buf
    by_cases h : buf = [] <;> simp [resampleAux, bucketsAux, List.isEmpty_iff, h]
  | cons p rest ih =>
    intro buf
    by_cases h : buf = [] ∨ p.timestamp - anchorTime buf < POINT_INTERVAL_TIME <;>
      simp [resampleAux, bucketsAux, List.isEmpty_iff, h, ih]

/-- Concatenating the buckets gives back the raw stream. -/
theorem bucketsAux_flatten (ps : List Point) :
    ∀ buf, (bucketsAux buf ps).flatten = buf ++ ps := by
  induction ps with
  | nil =>
    intro buf
    by_cases h : buf = [] <;>
      simp [bucketsAux, List.isEmpty_iff, h]
  | cons p rest ih =>
    intro buf
    by_cases h : buf = [] ∨ p.timestamp - anchorTime buf < POINT_INTERVAL_TIME <;>
      simp [bucketsAux, List.isEmpty_iff, h, ih]

/-- Every bucket produced from a non-empty buffer is non-empty. -/
theorem bucketsAux_ne_nil (ps : List Point) :
    ∀ buf, buf ≠ [] → ∀ b ∈ bucketsAux buf ps, b ≠ [] := by
  induction ps with
  | nil =>
    intro buf hbuf b hb
    simp only [bucketsAux, List.isEmpty_iff, if_neg hbuf] at hb
    rw [List.mem_singleton] at hb
    exact hb ▸ hbuf
  | cons p rest ih =>
    intro buf hbuf b hb
    by_cases h : buf = [] ∨ p.timestamp - anchorTime buf < POINT_INTERVAL_TIME
    · simp only [bucketsAux, List.isEmpty_iff, if_pos h] at hb
      exact ih (buf ++ [p]) (by simp) b hb
    · simp only [bucketsAux, List.isEmpty_iff, if_neg h] at hb
      rcases List.mem_cons.mp hb with rfl | hb2
      · exact hbuf
      · exact ih [p] (by simp) b hb2

/-- C5: the resampler emits exactly one sample per bucket — timestamp
equal to the bucket's anchor (the first buffered sample's timestamp)
and coordinates equal to the arithmetic mean of all buffered samples —
every bucket is non-empty, the buckets partition the raw stream in
order, and the trailing buffer is flushed as one final averaged
sample. -/
theorem C5_resampler_buckets (ps : List Point) :
    get_point ps = (buckets ps).map avgPoint ∧
    (∀ b ∈ buckets ps, b ≠ []) ∧
    (buckets ps).flatten = ps := by
  refine ⟨resampleAux_eq_map_avg ps [], ?_, by simpa using bucketsAux_flatten ps []⟩
  intro b hb
  cases ps with
  | nil =>
    simp [buckets, bucketsAux] at hb
  | cons p rest =>
    rw [buckets] at hb
    simp only [bucketsAux, List.isEmpty_iff, if_pos (Or.inl rfl)] at hb
    exact bucketsAux_ne_nil rest [p] (by simp) b (by simpa using hb)

/-- Witness for C5 on a concrete three-sample stream with two
buckets. -/
theorem C5_resampler_buckets_witness :
    get_point [Point.mk 0 1 2, Point.mk 5000000 3 4, Point.mk 12000000 5 6] =
      (buckets [Point.mk 0 1 2, Point.mk 5000000 3 4, Point.mk 12000000 5 6]).map avgPoint ∧
    [Point.mk 0 1 2, Point.mk 5000000 3 4] ≠ ([] : List Point) ∧
    (buckets [Point.mk 0 1 2, Point.mk 5000000 3 4, Point.mk 12000000 5 6]).flatten =
      [Point.mk 0 1 2, Point.mk 5000000 3 4, Point.mk 12000000 5 6] :=
  ⟨(C5_resampler_buckets _).1,
   (C5_resampler_buckets [Point.mk 0 1 2, Point.mk 5000000 3 4, Point.mk 12000000 5 6]).2.1
     [Point.mk 0 1 2, Point.mk 5000000 3 4] (by decide),
   (C5_resampler_buckets _).2.2⟩

/-- Appending to a non-empty buffer keeps its anchor. -/
theorem anchorTime_append (buf : List Point) (p : Point) (h : buf ≠ []) :
    anchorTime (buf ++ [p]) = anchorTime buf := by
  cases buf with
  | nil => exact absurd rfl h
  | cons q rest => rfl

/-- From a non-empty buffer, the first emitted sample carries the
buffer's anchor timestamp. -/
theorem resampleAux_head_ts (ps : List Point) :
    ∀ buf, buf ≠ [] →
      (resampleAux buf ps).head?.map Point.timestamp = some (anchorTime buf) := by
  induction ps with
  | nil =>
    intro buf h
    simp [resampleAux, List.isEmpty_iff, h, avgPoint]
  | cons p rest ih =>
    intro buf h
    by_cases hc : buf = [] ∨ p.timestamp - anchorTime buf < POINT_INTERVAL_TIME
    · simp only [resampleAux, List.isEmpty_iff, if_pos hc]
      rw [ih (buf ++ [p]) (by simp), anchorTime_append buf p h]
    · simp only [resampleAux, List.isEmpty_iff, if_neg hc]
      simp [avgPoint]

/-- Consecutive emitted samples are separated by at least the window
width: each emission carries its bucket's anchor, and a bucket only
breaks on a sample at least a window past the previous anchor. -/
theorem resampleAux_chain_gap (ps : List Point) :
    ∀ buf, List.Chain'
      (fun a b => a.timestamp + POINT_INTERVAL_TIME ≤ b.timestamp) (resampleAux buf ps) := by
  induction ps with
  | nil =>
    intro buf
    by_cases h : buf = [] <;> simp [resampleAux, List.isEmpty_iff, h]
  | cons p rest ih =>
    intro buf
    by_cases hc : buf = [] ∨ p.timestamp - anchorTime buf < POINT_INTERVAL_TIME
    · simp only [resampleAux, List.isEmpty_iff, if_pos hc]
      exact ih (buf ++ [p])
    · simp only [resampleAux, List.isEmpty_iff, if_neg hc]
      push_neg at hc
      refine List.chain'_cons'.mpr ⟨?_, ih [p]⟩
      intro q hq
      have hhead := resampleAux_head_ts rest [p] (by simp)
      cases hh : (resampleAux [p] rest).head? with
      | none => rw [hh] at hq; exact absurd hq (by simp)
      | some q2 =>
        rw [hh] at hq hhead
        have hq2 : q = q2 := by simpa using hq.symm
        have hts : q2.timestamp = p.timestamp := by
          simpa [anchorTime] using hhead
        have hgap : POINT_INTERVAL_TIME ≤ p.timestamp - anchorTime buf := hc.2
        have havg : (avgPoint buf).timestamp = anchorTime buf := rfl
        rw [hq2, hts, havg]
        omega

/-- C6: for a raw stream with non-decreasing timestamps, the
resampler's output timestamps are non-decreasing, and consecutive
emitted timestamps are at least the 10-second window apart, except
possibly at the final flushed sample. -/
theorem C6_resampler_gaps (ps : List Point)
    (h : List.Chain' (fun a b => a.timestamp ≤ b.timestamp) ps) :
    List.Chain' (fun a b => a.timestamp ≤ b.timestamp) (get_point ps) ∧
    List.Chain' (fun a b => a.timestamp + POINT_INTERVAL_TIME ≤ b.timestamp)
      (get_point ps).dropLast := by
  have hg := resampleAux_chain_gap ps []
  constructor
  · exact hg.imp fun a b hab => by
      have hw : (0 : ℤ) < POINT_INTERVAL_TIME := by decide
      omega
  · rw [List.dropLast_eq_take]
    exact hg.take _

/-- Witness for C6 on a concrete monotone stream. -/
theorem C6_resampler_gaps_witness :
    List.Chain' (fun a b => a.timestamp ≤ b.timestamp)
      [Point.mk 0 1 2, Point.mk 5000000 3 4, Point.mk 12000000 5 6] ∧
    List.Chain' (fun a b => a.timestamp ≤ b.timestamp)
      (get_point [Point.mk 0 1 2, Point.mk 5000000 3 4, Point.mk 12000000 5 6]) ∧
    List.Chain' (fun a b => a.timestamp + POINT_INTERVAL_TIME ≤ b.timestamp)
      (get_point [Point.mk 0 1 2, Point.mk 5000000 3 4, Point.mk 12000000 5 6]).dropLast := by
  have hmono : List.Chain' (fun a b => a.timestamp ≤ b.timestamp)
      [Point.mk 0 1 2, Point.mk 5000000 3 4, Point.mk 12000000 5 6] := by
    norm_num [List.chain'_cons, List.chain'_singleton]
  exact ⟨hmono, (C6_resampler_gaps _ hmono).1, (C6_resampler_gaps _ hmono).2⟩

/-- The stop/move bookkeeping never touches the route. -/
theorem stopUpdate_route (min_speed speed : ℝ) (s : AnalyzerState) (point : Point) :
    (stopUpdate min_speed speed s point).route = s.route := by
  unfold stopUpdate
  by_cases h : speed < min_speed <;> cases hsp : s.stop_point <;> simp [h, hsp]

/-- The stop/move bookkeeping never touches the previous bearing. -/
theorem stopUpdate_prev_vector (min_speed speed : ℝ) (s : AnalyzerState) (point : Point) :
    (stopUpdate min_speed speed s point).prev_vector = s.prev_vector := by
  unfold stopUpdate
  by_cases h : speed < min_speed <;> cases hsp : s.stop_point <;> simp [h, hsp]

/-- The stop/move bookkeeping never touches the previous sample. -/
theorem stopUpdate_prev_point (min_speed speed : ℝ) (s : AnalyzerState) (point : Point) :
    (stopUpdate min_speed speed s point).prev_point = s.prev_point := by
  unfold stopUpdate
  by_cases h : speed < min_speed <;> cases hsp : s.stop_point <;> simp [h, hsp]

/-- The route test only ever appends to the route. -/
theorem routeUpdate_route (threshold vector : ℝ) (s : AnalyzerState) (point : Point) :
    (routeUpdate threshold vector s point).route = s.route ∨
    (routeUpdate threshold vector s point).route =
      s.route ++ [(point.latitude, point.longitude)] := by
  unfold routeUpdate
  by_cases h : threshold ≤ |vector - s.prev_vector| <;> simp [h]

/-- A successful step only ever appends to the route. -/
theorem stepParam_route_extend (min_speed threshold : ℝ) (s s2 : AnalyzerState) (point : Point)
    (hstep : stepParam min_speed threshold s point = some s2) :
    s2.route = s.route ∨ s2.route = s.route ++ [(point.latitude, point.longitude)] := by
  unfold stepParam at hstep
  cases hprev : s.prev_point with
  | none =>
    simp only [hprev, Option.some.injEq] at hstep
    right
    rw [← hstep]
  | some prev =>
    cases hsp : get_speed_from_points prev point with
    | none => simp [hprev, hsp] at hstep
    | some speed =>
      simp only [hprev, hsp, Option.some.injEq] at hstep
      have hr := routeUpdate_route threshold
        (get_vector (prev.latitude, prev.longitude) (point.latitude, point.longitude))
        (stopUpdate min_speed speed s point) point
      rw [stopUpdate_route] at hr
      rcases hr with hr | hr
      · left; rw [← hstep]; exact hr
      · right; rw [← hstep]; exact hr

/-- A successful run of the loop preserves the first route vertex. -/
theorem foldlM_route_head (min_speed threshold : ℝ) (ps : List Point) :
    ∀ (s st : AnalyzerState) (v : ℚ × ℚ),
      ps.foldlM (stepParam min_speed threshold) s = some st →
      s.route.head? = some v → st.route.head? = some v := by
  induction ps with
  | nil =>
    intro s st v hf hh
    simp only [List.foldlM_nil] at hf
    cases hf
    exact hh
  | cons p rest ih =>
    intro s st v hf hh
    rw [List.foldlM_cons] at hf
    cases hstep : stepParam min_speed threshold s p with
    | none => rw [hstep] at hf; simp at hf
    | some s1 =>
      rw [hstep] at hf
      refine ih s1 st v (by simpa using hf) ?_
      rcases stepParam_route_extend min_speed threshold s s1 p hstep with he | he
      · rw [he]; exact hh
      · rw [he]
        cases hr : s.route with
        | nil => rw [hr] at hh; simp at hh
        | cons a t =>
          rw [hr] at hh
          simpa using hh

/-- C7: for every non-empty resampled stream on which the analyzer
completes, and for any speed and heading-change thresholds, the first
route vertex is the first sample's position. -/
theorem C7_route_first_vertex (min_speed threshold : ℝ) (p : Point) (rest : List Point)
    (st : AnalyzerState)
    (h : processPointsParam min_speed threshold (p :: rest) = some st) :
    st.route.head? = some (p.latitude, p.longitude) := by
  unfold processPointsParam at h
  rw [List.foldlM_cons] at h
  have h1 : stepParam min_speed threshold initState p =
      some { initState with route := [(p.latitude, p.longitude)], prev_point := some p } := by
    simp [stepParam, initState]
  rw [h1] at h
  simp only [Option.some_bind] at h
  exact foldlM_route_head min_speed threshold rest _ st _ h (by simp)

/-- Witness for C7: one concrete sample, with the source's thresholds. -/
theorem C7_route_first_vertex_witness :
    processPointsParam MIN_SPEED 0.1 [Point.mk 0 1 2] =
      some (AnalyzerState.mk [] none (some (Point.mk 0 1 2)) [(1, 2)] 0) ∧
    (AnalyzerState.mk [] none (some (Point.mk 0 1 2)) [(1, 2)] 0).route.head? = some (1, 2) := by
  have hrun : processPointsParam MIN_SPEED 0.1 [Point.mk 0 1 2] =
      some (AnalyzerState.mk [] none (some (Point.mk 0 1 2)) [(1, 2)] 0) := by
    simp [processPointsParam, List.foldlM, stepParam, initState]
  exact ⟨hrun, C7_route_first_vertex MIN_SPEED 0.1 (Point.mk 0 1 2) [] _ hrun⟩

/-- The route test never touches the stop accumulators or the previous
sample. -/
theorem routeUpdate_stop_points (threshold vector : ℝ) (s : AnalyzerState) (point : Point) :
    (routeUpdate threshold vector s point).stop_points = s.stop_points := by
  unfold routeUpdate
  by_cases h : threshold ≤ |vector - s.prev_vector| <;> simp [h]

/-- The route test never touches the open stop. -/
theorem routeUpdate_stop_point (threshold vector : ℝ) (s : AnalyzerState) (point : Point) :
    (routeUpdate threshold vector s point).stop_point = s.stop_point := by
  unfold routeUpdate
  by_cases h : threshold ≤ |vector - s.prev_vector| <;> simp [h]

/-- A successful step records the processed sample as the new previous
sample. -/
theorem stepParam_prev_point (min_speed threshold : ℝ) (s s2 : AnalyzerState) (point : Point)
    (hstep : stepParam min_speed threshold s point = some s2) :
    s2.prev_point = some point := by
  unfold stepParam at hstep
  cases hprev : s.prev_point with
  | none =>
    simp only [hprev, Option.some.injEq] at hstep
    rw [← hstep]
  | some prev =>
    cases hsp : get_speed_from_points prev point with
    | none => simp [hprev, hsp] at hstep
    | some speed =>
      simp only [hprev, hsp, Option.some.injEq] at hstep
      rw [← hstep]

/-- The invariant carried through the loop for C8: accumulated and open
stops have `start_time ≤ end_time`, and an open stop's `end_time` never
exceeds the previous sample's timestamp plus the display offset. -/
def stopInv (s : AnalyzerState) : Prop :=
  (∀ sp ∈ s.stop_points, sp.start_time ≤ sp.end_time) ∧
  (∀ sp, s.stop_point = some sp → sp.start_time ≤ sp.end_time ∧
    ∃ q, s.prev_point = some q ∧ sp.end_time ≤ q.timestamp + TIME_ZONE_DIFF)

/-- Below the threshold with an open stop: only `end_time` moves. -/
theorem stopUpdate_stationary_open (min_speed speed : ℝ) (s : AnalyzerState) (point : Point)
    (sp0 : StopPoint) (h : speed < min_speed) (hsp : s.stop_point = some sp0) :
    stopUpdate min_speed speed s point =
      { s with stop_point := some ({ sp0 with end_time := point.timestamp + TIME_ZONE_DIFF }) } := by
  unfold stopUpdate
  rw [if_pos h, hsp]

/-- Below the threshold with no open stop: open a fresh degenerate
interval at the sample. -/
theorem stopUpdate_stationary_fresh (min_speed speed : ℝ) (s : AnalyzerState) (point : Point)
    (h : speed < min_speed) (hsp : s.stop_point = none) :
    stopUpdate min_speed speed s point =
      { s with stop_point := some (StopPoint.mk point.latitude point.longitude
          (point.timestamp + TIME_ZONE_DIFF) (point.timestamp + TIME_ZONE_DIFF)) } := by
  unfold stopUpdate
  rw [if_pos h, hsp]

/-- At or above the threshold with an open stop: close and append it. -/
theorem stopUpdate_moving_open (min_speed speed : ℝ) (s : AnalyzerState) (point : Point)
    (sp0 : StopPoint) (h : ¬speed < min_speed) (hsp : s.stop_point = some sp0) :
    stopUpdate min_speed speed s point =
      { s with stop_points := s.stop_points ++ [sp0], stop_point := none } := by
  unfold stopUpdate
  rw [if_neg h, hsp]

/-- At or above the threshold with no open stop: no change. -/
theorem stopUpdate_moving_none (min_speed speed : ℝ) (s : AnalyzerState) (point : Point)
    (h : ¬speed < min_speed) (hsp : s.stop_point = none) :
    stopUpdate min_speed speed s point = s := by
  unfold stopUpdate
  rw [if_neg h, hsp]

/-- The stop/move bookkeeping preserves well-formed stops when the
incoming sample is no earlier than the bound on the open stop. -/
theorem stopUpdate_wf (min_speed speed : ℝ) (s : AnalyzerState) (point : Point)
    (hinv1 : ∀ sp ∈ s.stop_points, sp.start_time ≤ sp.end_time)
    (hinv2 : ∀ sp, s.stop_point = some sp → sp.start_time ≤ sp.end_time ∧
      sp.end_time ≤ point.timestamp + TIME_ZONE_DIFF) :
    (∀ sp ∈ (stopUpdate min_speed speed s point).stop_points, sp.start_time ≤ sp.end_time) ∧
    (∀ sp, (stopUpdate min_speed speed s point).stop_point = some sp →
      sp.start_time ≤ sp.end_time ∧ sp.end_time ≤ point.timestamp + TIME_ZONE_DIFF) := by
  by_cases hlt : speed < min_speed
  · cases hsp2 : s.stop_point with
    | none =>
      rw [stopUpdate_stationary_fresh min_speed speed s point hlt hsp2]
      refine ⟨fun sp h => hinv1 sp h, fun sp h => ?_⟩
      have h2 : sp = StopPoint.mk point.latitude point.longitude
          (point.timestamp + TIME_ZONE_DIFF) (point.timestamp + TIME_ZONE_DIFF) := by
        simpa using h.symm
      rw [h2]
      exact ⟨le_refl _, le_refl _⟩
    | some sp0 =>
      rw [stopUpdate_stationary_open min_speed speed s point sp0 hlt hsp2]
      refine ⟨fun sp h => hinv1 sp h, fun sp h => ?_⟩
      have h0 := hinv2 sp0 hsp2
      have h2 : sp = { sp0 with end_time := point.timestamp + TIME_ZONE_DIFF } := by
        simpa using h.symm
      rw [h2]
      exact ⟨le_trans h0.1 h0.2, le_refl _⟩
  · cases hsp2 : s.stop_point with
    | none =>
      rw [stopUpdate_moving_none min_speed speed s point hlt hsp2]
      refine ⟨hinv1, fun sp h => ?_⟩
      rw [hsp2] at h
      exact absurd h (by simp)
    | some sp0 =>
      rw [stopUpdate_moving_open min_speed speed s point sp0 hlt hsp2]
      refine ⟨?_, fun sp h => absurd h (by simp)⟩
      intro sp h
      rcases List.mem_append.mp h with hm | hm
      · exact hinv1 sp hm
      · rw [List.mem_singleton] at hm
        rw [hm]
        exact (hinv2 sp0 hsp2).1

/-- One successful step preserves the stop invariant when the incoming
sample is no earlier than the previous one. -/
theorem stepParam_stopInv (min_speed threshold : ℝ) (s s2 : AnalyzerState) (point : Point)
    (hstep : stepParam min_speed threshold s point = some s2)
    (hinv : stopInv s)
    (hord : ∀ q, s.prev_point = some q → q.timestamp ≤ point.timestamp) :
    stopInv s2 := by
  unfold stepParam at hstep
  cases hprev : s.prev_point with
  | none =>
    simp only [hprev, Option.some.injEq] at hstep
    rw [← hstep]
    refine ⟨hinv.1, ?_⟩
    intro sp hsp
    have hsp2 : s.stop_point = some sp := hsp
    rcases (hinv.2 sp hsp2).2 with ⟨q, hq, hend⟩
    rw [hprev] at hq
    exact absurd hq (by simp)
  | some prev =>
    cases hspd : get_speed_from_points prev point with
    | none => simp [hprev, hspd] at hstep
    | some speed =>
      simp only [hprev, hspd, Option.some.injEq] at hstep
      rw [← hstep]
      have hple : prev.timestamp ≤ point.timestamp := hord prev hprev
      have hwf := stopUpdate_wf min_speed speed s point hinv.1 ?inv2
      case inv2 =>
        intro sp hsp
        have h0 := hinv.2 sp hsp
        rcases h0.2 with ⟨q, hq, hend⟩
        rw [hprev] at hq
        have hqp : q = prev := by
          have := hq.symm
          injection this
        refine ⟨h0.1, ?_⟩
        rw [hqp] at hend
        exact le_trans hend (add_le_add_right hple TIME_ZONE_DIFF)
      constructor
      · intro sp hsp
        have hmem : sp ∈ (stopUpdate min_speed speed s point).stop_points := by
          simpa [routeUpdate_stop_points] using hsp
        exact hwf.1 sp hmem
      · intro sp hsp
        have hsp2 : (stopUpdate min_speed speed s point).stop_point = some sp := by
          simpa [routeUpdate_stop_point] using hsp
        have h1 := hwf.2 sp hsp2
        exact ⟨h1.1, point, rfl, h1.2⟩

/-- The stop invariant carried along a successful run over
pairwise-ordered samples. -/
theorem foldlM_stopInv (min_speed threshold : ℝ) (ps : List Point) :
    ∀ s st, ps.foldlM (stepParam min_speed threshold) s = some st →
      stopInv s →
      (∀ q, s.prev_point = some q → ∀ x ∈ ps, q.timestamp ≤ x.timestamp) →
      List.Pairwise (fun a b => a.timestamp ≤ b.timestamp) ps →
      stopInv st := by
  induction ps with
  | nil =>
    intro s st hf hinv hord hpw
    simp only [List.foldlM_nil] at hf
    cases hf
    exact hinv
  | cons p rest ih =>
    intro s st hf hinv hord hpw
    rw [List.foldlM_cons] at hf
    cases hstep : stepParam min_speed threshold s p with
    | none => rw [hstep] at hf; simp at hf
    | some s1 =>
      rw [hstep] at hf
      have hf2 : rest.foldlM (stepParam min_speed threshold) s1 = some st := by
        simpa using hf
      have hinv1 := stepParam_stopInv min_speed threshold s s1 p hstep hinv
        (fun q hq => hord q hq p (List.mem_cons_self p rest))
      refine ih s1 st hf2 hinv1 ?_ (List.Pairwise.of_cons hpw)
      intro q hq x hx
      have hq2 : q = p := by
        have hpp := stepParam_prev_point min_speed threshold s s1 p hstep
        rw [hpp] at hq
        injection hq.symm
      rw [hq2]
      exact (List.pairwise_cons.mp hpw).1 x hx

/-- C8: on any stream with non-decreasing timestamps, every stop
interval the analyzer accumulates or holds open satisfies
`start_time ≤ end_time`; since every prefix of such a stream is again
such a stream, this covers every intermediate state of the loop. -/
theorem C8_stop_interval_invariant (ps : List Point) (st : AnalyzerState)
    (hmono : List.Chain' (fun a b => a.timestamp ≤ b.timestamp) ps)
    (h : processPoints ps = some st) :
    (∀ sp ∈ st.stop_points, sp.start_time ≤ sp.end_time) ∧
    (∀ sp, st.stop_point = some sp → sp.start_time ≤ sp.end_time) := by
  haveI : IsTrans Point (fun a b => a.timestamp ≤ b.timestamp) :=
    ⟨fun a b c hab hbc => le_trans hab hbc⟩
  have hpw : List.Pairwise (fun a b => a.timestamp ≤ b.timestamp) ps :=
    List.chain'_iff_pairwise.mp hmono
  unfold processPoints processPointsParam at h
  have hinv := foldlM_stopInv MIN_SPEED 0.1 ps initState st h ?init ?ord hpw
  case init =>
    constructor
    · intro sp hsp
      simp [initState] at hsp
    · intro sp hsp
      simp [initState] at hsp
  case ord =>
    intro q hq
    simp [initState] at hq
  exact ⟨hinv.1, fun sp hsp => (hinv.2 sp hsp).1⟩

/-- `atan2` of a zero displacement is 0 (Python returns 0.0 at the
origin). -/
theorem get_vector_self (pos : ℚ × ℚ) : get_vector pos pos = 0 := by
  unfold get_vector
  have h : (⟨((pos.2 - pos.2 : ℚ) : ℝ), ((pos.1 - pos.1 : ℚ) : ℝ)⟩ : ℂ) = 0 := by
    apply Complex.ext <;> simp
  rw [h, Complex.arg_zero]

/-- Two samples at the same position, a positive `timedelta.seconds`
apart, give speed 0. -/
theorem speed_same_pos (lat lon : ℚ) (t1 t2 : ℤ) (h : tdSeconds (t2 - t1) = 10) :
    get_speed_from_points (Point.mk t1 lat lon) (Point.mk t2 lat lon) = some 0 := by
  simp only [get_speed_from_points, get_distance_self, h, get_speed]
  norm_num

/-- A step whose speed is 0 and whose bearing equals the previous
bearing 0: only the stop bookkeeping acts; the route is unchanged. -/
theorem step_stationary (s : AnalyzerState) (prev point : Point)
    (hprev : s.prev_point = some prev)
    (hspd : get_speed_from_points prev point = some 0)
    (hvec : get_vector (prev.latitude, prev.longitude) (point.latitude, point.longitude) = 0)
    (hpv : s.prev_vector = 0) :
    stepParam MIN_SPEED 0.1 s point =
      some { stopUpdate MIN_SPEED 0 s point with prev_vector := 0, prev_point := some point } := by
  unfold stepParam
  simp only [hprev, hspd]
  rw [hvec]
  have hc : ¬((0.1 : ℝ) ≤ |0 - (stopUpdate MIN_SPEED 0 s point).prev_vector|) := by
    rw [stopUpdate_prev_vector, hpv]
    norm_num
  have hru : routeUpdate 0.1 0 (stopUpdate MIN_SPEED 0 s point) point =
      stopUpdate MIN_SPEED 0 s point := by
    unfold routeUpdate
    rw [if_neg hc]
  rw [hru]

/-- Running the analyzer on two stationary samples 10 s apart: a stop
opens at the second sample and stays open; the route holds only the
first vertex. -/
theorem run_two_stationary (lat lon : ℚ) (t : ℤ) :
    processPoints [Point.mk t lat lon, Point.mk (t + 10000000) lat lon] =
      some (AnalyzerState.mk []
        (some (StopPoint.mk lat lon (t + 10000000 + TIME_ZONE_DIFF)
          (t + 10000000 + TIME_ZONE_DIFF)))
        (some (Point.mk (t + 10000000) lat lon))
        [(lat, lon)] 0) := by
  have hdt : t + 10000000 - t = 10000000 := by ring
  have h12 : get_speed_from_points (Point.mk t lat lon) (Point.mk (t + 10000000) lat lon) =
      some 0 := by
    apply speed_same_pos
    rw [hdt]
    decide
  have hstep1 : stepParam MIN_SPEED 0.1 initState (Point.mk t lat lon) =
      some (AnalyzerState.mk [] none (some (Point.mk t lat lon)) [(lat, lon)] 0) := by
    simp [stepParam, initState]
  have hstep2 : stepParam MIN_SPEED 0.1
      (AnalyzerState.mk [] none (some (Point.mk t lat lon)) [(lat, lon)] 0)
      (Point.mk (t + 10000000) lat lon) =
      some (AnalyzerState.mk []
        (some (StopPoint.mk lat lon (t + 10000000 + TIME_ZONE_DIFF)
          (t + 10000000 + TIME_ZONE_DIFF)))
        (some (Point.mk (t + 10000000) lat lon))
        [(lat, lon)] 0) := by
    rw [step_stationary _ (Point.mk t lat lon) _ rfl h12 (get_vector_self (lat, lon)) rfl]
    rw [stopUpdate_stationary_fresh MIN_SPEED 0
      (AnalyzerState.mk [] none (some (Point.mk t lat lon)) [(lat, lon)] 0)
      (Point.mk (t + 10000000) lat lon) (by norm_num [MIN_SPEED]) rfl]
  unfold processPoints processPointsParam
  rw [List.foldlM_cons, hstep1]
  simp only [Option.bind_eq_bind, Option.some_bind]
  rw [List.foldlM_cons, hstep2]
  simp only [Option.bind_eq_bind, Option.some_bind]
  rw [List.foldlM_nil]
  rfl

/-- Running the analyzer on three stationary samples 10 s apart: the
stop opened at the second sample is extended to the third and stays
open (it is never appended to the result list); the route holds only
the first vertex. -/
theorem run_three_stationary (lat lon : ℚ) (t : ℤ) :
    processPoints [Point.mk t lat lon, Point.mk (t + 10000000) lat lon,
        Point.mk (t + 20000000) lat lon] =
      some (AnalyzerState.mk []
        (some (StopPoint.mk lat lon (t + 10000000 + TIME_ZONE_DIFF)
          (t + 20000000 + TIME_ZONE_DIFF)))
        (some (Point.mk (t + 20000000) lat lon))
        [(lat, lon)] 0) := by
  have h23 : get_speed_from_points (Point.mk (t + 10000000) lat lon)
      (Point.mk (t + 20000000) lat lon) = some 0 := by
    apply speed_same_pos
    have hdt : t + 20000000 - (t + 10000000) = 10000000 := by ring
    rw [hdt]
    decide
  have h12 : get_speed_from_points (Point.mk t lat lon) (Point.mk (t + 10000000) lat lon) =
      some 0 := by
    apply speed_same_pos
    have hdt : t + 10000000 - t = 10000000 := by ring
    rw [hdt]
    decide
  have hstep1 : stepParam MIN_SPEED 0.1 initState (Point.mk t lat lon) =
      some (AnalyzerState.mk [] none (some (Point.mk t lat lon)) [(lat, lon)] 0) := by
    simp [stepParam, initState]
  have hstep2 : stepParam MIN_SPEED 0.1
      (AnalyzerState.mk [] none (some (Point.mk t lat lon)) [(lat, lon)] 0)
      (Point.mk (t + 10000000) lat lon) =
      some (AnalyzerState.mk []
        (some (StopPoint.mk lat lon (t + 10000000 + TIME_ZONE_DIFF)
          (t + 10000000 + TIME_ZONE_DIFF)))
        (some (Point.mk (t + 10000000) lat lon))
        [(lat, lon)] 0) := by
    rw [step_stationary _ (Point.mk t lat lon) _ rfl h12 (get_vector_self (lat, lon)) rfl]
    rw [stopUpdate_stationary_fresh MIN_SPEED 0
      (AnalyzerState.mk [] none (some (Point.mk t lat lon)) [(lat, lon)] 0)
      (Point.mk (t + 10000000) lat lon) (by norm_num [MIN_SPEED]) rfl]
  have hstep3 : stepParam MIN_SPEED 0.1
      (AnalyzerState.mk []
        (some (StopPoint.mk lat lon (t + 10000000 + TIME_ZONE_DIFF)
          (t + 10000000 + TIME_ZONE_DIFF)))
        (some (Point.mk (t + 10000000) lat lon))
        [(lat, lon)] 0)
      (Point.mk (t + 20000000) lat lon) =
      some (AnalyzerState.mk []
        (some (StopPoint.mk lat lon (t + 10000000 + TIME_ZONE_DIFF)
          (t + 20000000 + TIME_ZONE_DIFF)))
        (some (Point.mk (t + 20000000) lat lon))
        [(lat, lon)] 0) := by
    rw [step_stationary _ (Point.mk (t + 10000000) lat lon) _ rfl h23
      (get_vector_self (lat, lon)) rfl]
    rw [stopUpdate_stationary_open MIN_SPEED 0
      (AnalyzerState.mk []
        (some (StopPoint.mk lat lon (t + 10000000 + TIME_ZONE_DIFF)
          (t + 10000000 + TIME_ZONE_DIFF)))
        (some (Point.mk (t + 10000000) lat lon))
        [(lat, lon)] 0)
      (Point.mk (t + 20000000) lat lon)
      (StopPoint.mk lat lon (t + 10000000 + TIME_ZONE_DIFF) (t + 10000000 + TIME_ZONE_DIFF))
      (by norm_num [MIN_SPEED]) rfl]
  unfold processPoints processPointsParam
  rw [List.foldlM_cons, hstep1]
  simp only [Option.bind_eq_bind, Option.some_bind]
  rw [List.foldlM_cons, hstep2]
  simp only [Option.bind_eq_bind, Option.some_bind]
  rw [List.foldlM_cons, hstep3]
  simp only [Option.bind_eq_bind, Option.some_bind]
  rw [List.foldlM_nil]
  rfl

/-- Witness for C8 on a concrete stationary run in which a stop is
opened and extended. -/
theorem C8_stop_interval_invariant_witness :
    List.Chain' (fun a b => a.timestamp ≤ b.timestamp)
      [Point.mk 0 35 139, Point.mk 10000000 35 139, Point.mk 20000000 35 139] ∧
    processPoints [Point.mk 0 35 139, Point.mk 10000000 35 139, Point.mk 20000000 35 139] =
      some (AnalyzerState.mk []
        (some (StopPoint.mk 35 139 (10000000 + TIME_ZONE_DIFF) (20000000 + TIME_ZONE_DIFF)))
        (some (Point.mk 20000000 35 139)) [(35, 139)] 0) ∧
    (∀ sp ∈ (AnalyzerState.mk []
        (some (StopPoint.mk 35 139 (10000000 + TIME_ZONE_DIFF) (20000000 + TIME_ZONE_DIFF)))
        (some (Point.mk 20000000 35 139)) [(35, 139)] 0).stop_points,
      sp.start_time ≤ sp.end_time) ∧
    (∀ sp, (AnalyzerState.mk []
        (some (StopPoint.mk 35 139 (10000000 + TIME_ZONE_DIFF) (20000000 + TIME_ZONE_DIFF)))
        (some (Point.mk 20000000 35 139)) [(35, 139)] 0).stop_point = some sp →
      sp.start_time ≤ sp.end_time) := by
  have hmono : List.Chain' (fun a b => a.timestamp ≤ b.timestamp)
      [Point.mk 0 35 139, Point.mk 10000000 35 139, Point.mk 20000000 35 139] := by
    norm_num [List.chain'_cons, List.chain'_singleton]
  have hrun := run_three_stationary 35 139 0
  norm_num at hrun
  have hres := C8_stop_interval_invariant _ _ hmono hrun
  exact ⟨hmono, hrun, hres.1, hres.2⟩

/-- C9: a step that extends an already-open stop (previous sample
present, speed below the threshold) replaces the open stop by one whose
latitude, longitude and `start_time` are unchanged; only `end_time`
moves, to the sample's timestamp plus the display offset. -/
theorem C9_extend_only_end_time (s s2 : AnalyzerState) (prev point : Point) (sp0 : StopPoint)
    (v : ℝ)
    (hprev : s.prev_point = some prev)
    (hsp : s.stop_point = some sp0)
    (hspd : get_speed_from_points prev point = some v)
    (hv : v < MIN_SPEED)
    (hstep : stepParam MIN_SPEED 0.1 s point = some s2) :
    s2.stop_point = some (StopPoint.mk sp0.latitude sp0.longitude sp0.start_time
      (point.timestamp + TIME_ZONE_DIFF)) := by
  unfold stepParam at hstep
  simp only [hprev, hspd, Option.some.injEq] at hstep
  rw [← hstep]
  have h1 : ({ routeUpdate 0.1
        (get_vector (prev.latitude, prev.longitude) (point.latitude, point.longitude))
        (stopUpdate MIN_SPEED v s point) point with
      prev_vector := get_vector (prev.latitude, prev.longitude) (point.latitude, point.longitude),
      prev_point := some point } : AnalyzerState).stop_point =
      (stopUpdate MIN_SPEED v s point).stop_point := by
    rw [routeUpdate_stop_point]
  rw [h1, stopUpdate_stationary_open MIN_SPEED v s point sp0 hv hsp]

/-- Witness for C9: the third stationary sample extends the stop opened
at the second one. -/
theorem C9_extend_only_end_time_witness :
    stepParam MIN_SPEED 0.1
      (AnalyzerState.mk []
        (some (StopPoint.mk 35 139 (10000000 + TIME_ZONE_DIFF) (10000000 + TIME_ZONE_DIFF)))
        (some (Point.mk 10000000 35 139)) [(35, 139)] 0)
      (Point.mk 20000000 35 139) =
      some (AnalyzerState.mk []
        (some (StopPoint.mk 35 139 (10000000 + TIME_ZONE_DIFF) (20000000 + TIME_ZONE_DIFF)))
        (some (Point.mk 20000000 35 139)) [(35, 139)] 0) ∧
    (AnalyzerState.mk []
        (some (StopPoint.mk 35 139 (10000000 + TIME_ZONE_DIFF) (20000000 + TIME_ZONE_DIFF)))
        (some (Point.mk 20000000 35 139)) [(35, 139)] 0).stop_point =
      some (StopPoint.mk (35 : ℚ) (139 : ℚ) (10000000 + TIME_ZONE_DIFF)
        ((Point.mk 20000000 35 139).timestamp + TIME_ZONE_DIFF)) := by
  have hspd : get_speed_from_points (Point.mk 10000000 35 139) (Point.mk 20000000 35 139) =
      some 0 := by
    apply speed_same_pos
    decide
  have hstep : stepParam MIN_SPEED 0.1
      (AnalyzerState.mk []
        (some (StopPoint.mk 35 139 (10000000 + TIME_ZONE_DIFF) (10000000 + TIME_ZONE_DIFF)))
        (some (Point.mk 10000000 35 139)) [(35, 139)] 0)
      (Point.mk 20000000 35 139) =
      some (AnalyzerState.mk []
        (some (StopPoint.mk 35 139 (10000000 + TIME_ZONE_DIFF) (20000000 + TIME_ZONE_DIFF)))
        (some (Point.mk 20000000 35 139)) [(35, 139)] 0) := by
    rw [step_stationary _ (Point.mk 10000000 35 139) _ rfl hspd (get_vector_self (35, 139)) rfl]
    rw [stopUpdate_stationary_open MIN_SPEED 0
      (AnalyzerState.mk []
        (some (StopPoint.mk 35 139 (10000000 + TIME_ZONE_DIFF) (10000000 + TIME_ZONE_DIFF)))
        (some (Point.mk 10000000 35 139)) [(35, 139)] 0)
      (Point.mk 20000000 35 139)
      (StopPoint.mk 35 139 (10000000 + TIME_ZONE_DIFF) (10000000 + TIME_ZONE_DIFF))
      (by norm_num [MIN_SPEED]) rfl]
  exact ⟨hstep,
    C9_extend_only_end_time _ _ (Point.mk 10000000 35 139) (Point.mk 20000000 35 139)
      (StopPoint.mk 35 139 (10000000 + TIME_ZONE_DIFF) (10000000 + TIME_ZONE_DIFF)) 0
      rfl rfl hspd (by norm_num [MIN_SPEED]) hstep⟩

/-- C10: the loop initializes the previous bearing to 0, so after the
first two samples of any stream the second sample's position is in the
route exactly when the bearing from the first to the second sample
differs from that fixed 0 by at least 0.1 radians — independently of
any actual heading change. -/
theorem C10_initial_bearing_second_vertex (p1 p2 : Point) (st : AnalyzerState)
    (h : processPoints [p1, p2] = some st) :
    initState.prev_vector = 0 ∧
    st.route =
      if (0.1 : ℝ) ≤ |get_vector (p1.latitude, p1.longitude) (p2.latitude, p2.longitude) - 0|
      then [(p1.latitude, p1.longitude), (p2.latitude, p2.longitude)]
      else [(p1.latitude, p1.longitude)] := by
  refine ⟨rfl, ?_⟩
  unfold processPoints processPointsParam at h
  rw [List.foldlM_cons] at h
  have hstep1 : stepParam MIN_SPEED 0.1 initState p1 =
      some (AnalyzerState.mk [] none (some p1) [(p1.latitude, p1.longitude)] 0) := by
    simp [stepParam, initState]
  rw [hstep1] at h
  simp only [Option.bind_eq_bind, Option.some_bind, List.foldlM_cons, List.foldlM_nil] at h
  cases hstep2 : stepParam MIN_SPEED 0.1
      (AnalyzerState.mk [] none (some p1) [(p1.latitude, p1.longitude)] 0) p2 with
  | none => rw [hstep2] at h; simp at h
  | some s2 =>
    rw [hstep2] at h
    have hst : s2 = st := by simpa using h
    unfold stepParam at hstep2
    simp only [] at hstep2
    cases hspd : get_speed_from_points p1 p2 with
    | none => rw [hspd] at hstep2; exact absurd hstep2 (by simp)
    | some v =>
      rw [hspd] at hstep2
      simp only [Option.some.injEq] at hstep2
      rw [← hst, ← hstep2]
      have hpv : (stopUpdate MIN_SPEED v
          (AnalyzerState.mk [] none (some p1) [(p1.latitude, p1.longitude)] 0) p2).prev_vector =
          (0 : ℝ) :=
        stopUpdate_prev_vector MIN_SPEED v _ p2
      have hrt : (stopUpdate MIN_SPEED v
          (AnalyzerState.mk [] none (some p1) [(p1.latitude, p1.longitude)] 0) p2).route =
          [(p1.latitude, p1.longitude)] :=
        stopUpdate_route MIN_SPEED v _ p2
      unfold routeUpdate
      rw [hpv]
      by_cases hc : (0.1 : ℝ) ≤
          |get_vector (p1.latitude, p1.longitude) (p2.latitude, p2.longitude) - 0|
      · rw [if_pos hc, if_pos hc]
        rw [hrt]
        simp
      · rw [if_neg hc, if_neg hc]
        rw [hrt]

/-- Witness for C10 at a concrete two-sample stream (zero displacement,
so the bearing equals the initial 0 and the second vertex is not
appended). -/
theorem C10_initial_bearing_witness :
    processPoints [Point.mk 0 35 139, Point.mk 10000000 35 139] =
      some (AnalyzerState.mk []
        (some (StopPoint.mk 35 139 (10000000 + TIME_ZONE_DIFF) (10000000 + TIME_ZONE_DIFF)))
        (some (Point.mk 10000000 35 139)) [(35, 139)] 0) ∧
    initState.prev_vector = 0 ∧
    (AnalyzerState.mk []
        (some (StopPoint.mk 35 139 (10000000 + TIME_ZONE_DIFF) (10000000 + TIME_ZONE_DIFF)))
        (some (Point.mk 10000000 35 139)) [(35, 139)] 0).route =
      if (0.1 : ℝ) ≤ |get_vector ((Point.mk 0 35 139).latitude, (Point.mk 0 35 139).longitude)
          ((Point.mk 10000000 35 139).latitude, (Point.mk 10000000 35 139).longitude) - 0|
      then [((Point.mk 0 35 139).latitude, (Point.mk 0 35 139).longitude),
            ((Point.mk 10000000 35 139).latitude, (Point.mk 10000000 35 139).longitude)]
      else [((Point.mk 0 35 139).latitude, (Point.mk 0 35 139).longitude)] := by
  have hrun := run_two_stationary 35 139 0
  norm_num at hrun
  have hres := C10_initial_bearing_second_vertex (Point.mk 0 35 139) (Point.mk 10000000 35 139)
    _ hrun
  exact ⟨hrun, hres.1, hres.2⟩

/-- C1 counterexample: on three consecutive resampled samples at the
same position, 10 s apart, `get_stop_points` returns an *empty* stop
list (the stop opened at the second sample is still open at exhaustion
and is discarded), not the single interval the claim describes. -/
theorem C1_counterexample_scenarioB :
    get_stop_points [Point.mk 0 35 139, Point.mk 10000000 35 139, Point.mk 20000000 35 139] =
      some ([], [(35, 139)]) := by
  have hrun := run_three_stationary 35 139 0
  norm_num at hrun
  rw [get_stop_points, hrun]
  rfl

/-- C1 (amended): on three consecutive resampled samples at the same
position, 10 s apart each, both computed speeds are 0 km/h; a stop
interval is opened at the *second* sample and extended to the third, so
at exhaustion it spans from the second to the last timestamp (each plus
the display offset) — a 10 s span with `elapsed_minutes = 0`, rendered
`"0m"` — but the loop discards the still-open interval, and
`get_stop_points` returns no stop at all, with the route holding only
the first position. -/
theorem C1_scenarioB_amended (lat lon : ℚ) (t : ℤ) :
    get_stop_points [Point.mk t lat lon, Point.mk (t + 10000000) lat lon,
        Point.mk (t + 20000000) lat lon] = some ([], [(lat, lon)]) ∧
    (processPoints [Point.mk t lat lon, Point.mk (t + 10000000) lat lon,
        Point.mk (t + 20000000) lat lon]).map AnalyzerState.stop_point =
      some (some (StopPoint.mk lat lon (t + 10000000 + TIME_ZONE_DIFF)
        (t + 20000000 + TIME_ZONE_DIFF))) ∧
    get_speed_from_points (Point.mk t lat lon) (Point.mk (t + 10000000) lat lon) = some 0 ∧
    get_speed_from_points (Point.mk (t + 10000000) lat lon)
      (Point.mk (t + 20000000) lat lon) = some 0 ∧
    get_elapsed_time (StopPoint.mk lat lon (t + 10000000 + TIME_ZONE_DIFF)
      (t + 20000000 + TIME_ZONE_DIFF)) = 0 ∧
    elapsed_time_to_str (get_elapsed_time (StopPoint.mk lat lon
      (t + 10000000 + TIME_ZONE_DIFF) (t + 20000000 + TIME_ZONE_DIFF))) = "0m" := by
  have hrun := run_three_stationary lat lon t
  have hel : get_elapsed_time (StopPoint.mk lat lon (t + 10000000 + TIME_ZONE_DIFF)
      (t + 20000000 + TIME_ZONE_DIFF)) = 0 := by
    unfold get_elapsed_time
    have hd : (StopPoint.mk lat lon (t + 10000000 + TIME_ZONE_DIFF)
        (t + 20000000 + TIME_ZONE_DIFF)).end_time -
        (StopPoint.mk lat lon (t + 10000000 + TIME_ZONE_DIFF)
          (t + 20000000 + TIME_ZONE_DIFF)).start_time = 10000000 := by
      simp only []
      ring
    rw [hd]
    have hs : tdSeconds 10000000 = 10 := by decide
    rw [hs]
    norm_num
  refine ⟨?_, ?_, ?_, ?_, hel, ?_⟩
  · rw [get_stop_points, hrun]
    rfl
  · rw [hrun]
    rfl
  · apply speed_same_pos
    have hdt : t + 10000000 - t = 10000000 := by ring
    rw [hdt]
    decide
  · apply speed_same_pos
    have hdt : t + 20000000 - (t + 10000000) = 10000000 := by ring
    rw [hdt]
    decide
  · rw [hel]
    rfl
